import Mathlib

/-!
# Verification of the SimpleMarket ledger (contracts/SimpleMarket.sol)

A shallow embedding of the `SimpleMarket` Solidity contract and proofs of the
specified properties of its operations.

Modelling conventions:
* `uint256` values (ids, prices, wei amounts) are `Nat`; all contract arithmetic
  here (`productCount++`, `msg.value - product.price`) stays far below `2^256`
  overflow in the proofs' scope, and the one subtraction is guarded by
  `msg.value >= product.price`, so plain `Nat` arithmetic is faithful.
* `address` is `Nat` (an opaque identity; only equality is used by the code).
* The storage `mapping(uint256 => Product)` is a total function
  `Nat → Product` whose default value is the zero-initialised struct, exactly
  as in the EVM storage model.
* A `require` failure reverts the whole call with no state change; this is
  embedded by returning `Except.error e` carrying no state: the caller keeps
  the pre-call state.
* `address.transfer` reverts the entire transaction on failure (the contract's
  own comment: "If transfer fails, entire transaction reverts"). Outbound
  transfers are collected as data; an environment predicate decides which
  deliveries succeed, and any failed delivery reverts the whole call
  (`runBuy`).
-/

/-- The `Product` struct of `SimpleMarket.sol`. -/
structure Product where
  id : Nat
  name : String
  description : String
  price : Nat
  seller : Nat
  sold : Bool
deriving DecidableEq

/-- The zero-initialised `Product`: the default value of the storage mapping. -/
def defaultProduct : Product :=
  { id := 0, name := "", description := "", price := 0, seller := 0, sold := false }

/-- The contract's state variables: `mapping(uint256 => Product) products` and
`uint256 productCount`. -/
structure MarketState where
  products : Nat → Product
  productCount : Nat

/-- Pointwise update of the products mapping (`products[k] = p`). -/
def setProduct (ps : Nat → Product) (k : Nat) (p : Product) : Nat → Product :=
  fun n => if n = k then p else ps n

/-- Freshly deployed contract: empty mapping, `productCount = 0`. -/
def initialState : MarketState :=
  { products := fun _ => defaultProduct, productCount := 0 }

/-- The failure kinds of the contract's `require` statements and of a failed
outbound transfer, named as in the specification's error taxonomy:
`invalidInput` ↔ "Product name cannot be empty" / "Product price must be
greater than 0"; `notFound` ↔ "Product does not exist"; `insufficientPayment`
↔ "Insufficient payment"; `alreadySold` ↔ "Product already sold";
`selfPurchase` ↔ "Cannot buy your own product"; `transferFailed` ↔ a reverted
`.transfer`. -/
inductive MarketError where
  | invalidInput
  | notFound
  | insufficientPayment
  | alreadySold
  | selfPurchase
  | transferFailed
deriving DecidableEq

/-- The `ProductAdded` event payload. -/
structure ProductAddedEvent where
  id : Nat
  name : String
  description : String
  price : Nat
  seller : Nat
deriving DecidableEq

/-- Result of a successful `addProduct` call: the new contract state, the
emitted `ProductAdded` event, and the ABI-declared return values of the
function. `addProduct` is declared `public` with NO `returns` clause in the
source, so `ret` is always the empty list. -/
structure AddOutcome where
  state : MarketState
  event : ProductAddedEvent
  ret : List Nat

/-- `addProduct(_name, _description, _price)` from `SimpleMarket.sol`
(lines 126-175), called by `caller` (= `msg.sender`):
`require(bytes(_name).length > 0)` (a string is byte-empty iff it is empty);
`require(_price > 0)`; then `productCount++`, store the new `Product` at key
`productCount` with `seller = msg.sender`, `sold = false`, and emit
`ProductAdded`. The function declares no return value. -/
def addProduct (s : MarketState) (caller : Nat) (name description : String)
    (price : Nat) : Except MarketError AddOutcome :=
  if ¬ name.length > 0 then .error .invalidInput
  else if ¬ price > 0 then .error .invalidInput
  else
    let newCount := s.productCount + 1
    .ok { state :=
            { products := setProduct s.products newCount
                { id := newCount, name := name, description := description,
                  price := price, seller := caller, sold := false },
              productCount := newCount },
          event := { id := newCount, name := name, description := description,
                     price := price, seller := caller },
          ret := [] }

/-- One primitive effect performed by the body of `buyProduct` after its
validation checks, in source order: the storage write `product.sold = true`
(line 217), an outbound `transfer` of `amount` wei to `recipient`
(lines 224 and 232), and the `ProductSold` event emission (line 238). -/
inductive BuyStep where
  | markSold (id : Nat)
  | transferOut (recipient amount : Nat)
  | emitSold (id : Nat) (name : String) (price seller buyer : Nat)
deriving DecidableEq

/-- `buyProduct(_id)` from `SimpleMarket.sol` (lines 187-239), called by
`caller` (= `msg.sender`) with `value` (= `msg.value`) wei attached.
The four `require` checks in source order:
1. `_id > 0 && _id <= productCount` else "Product does not exist";
2. `msg.value >= product.price` else "Insufficient payment";
3. `!product.sold` else "Product already sold";
4. `product.seller != msg.sender` else "Cannot buy your own product".
If all pass, the body performs, in order: `product.sold = true`;
`product.seller.transfer(product.price)`; if `msg.value > product.price`,
`payable(msg.sender).transfer(msg.value - product.price)`; and emits
`ProductSold`. The returned list records those effects in execution order. -/
def buyProduct (s : MarketState) (caller id value : Nat) :
    Except MarketError (List BuyStep) :=
  let product := s.products id
  if ¬ (id > 0 ∧ id ≤ s.productCount) then .error .notFound
  else if ¬ value ≥ product.price then .error .insufficientPayment
  else if product.sold then .error .alreadySold
  else if ¬ product.seller ≠ caller then .error .selfPurchase
  else
    .ok ([BuyStep.markSold id, BuyStep.transferOut product.seller product.price]
      ++ (if value > product.price
          then [BuyStep.transferOut caller (value - product.price)] else [])
      ++ [BuyStep.emitSold id product.name product.price product.seller caller])

/-- Applying one `BuyStep` to the contract state. Only the storage write
`product.sold = true` touches state; transfers move wei (tracked separately)
and events touch the log only. -/
def applyStep (s : MarketState) (a : BuyStep) : MarketState :=
  match a with
  | .markSold id =>
      let soldProduct := { s.products id with sold := true }
      { s with products := setProduct s.products id soldProduct }
  | .transferOut _ _ => s
  | .emitSold _ _ _ _ _ => s

/-- The outbound transfers of a step list, as (recipient, amount) pairs in
execution order. -/
def transfersOf (steps : List BuyStep) : List (Nat × Nat) :=
  steps.filterMap fun a =>
    match a with
    | .transferOut r v => some (r, v)
    | _ => none

/-- Total wei delivered to recipient `r` by a transfer list. -/
def sentTo (r : Nat) (ts : List (Nat × Nat)) : Nat :=
  (ts.filter fun t => t.1 = r).foldl (fun acc t => acc + t.2) 0

/-- A whole `buyProduct` transaction under a delivery environment:
`env r v = true` iff a transfer of `v` wei to `r` succeeds. Solidity's
`.transfer` reverts the entire transaction on failure, undoing every state
write and every earlier wei movement of the call, so the transaction commits
(new state plus the delivered transfers) only when every outbound transfer
succeeds, and otherwise fails with `transferFailed` leaving the caller with
the pre-call state. -/
def runBuy (env : Nat → Nat → Bool) (s : MarketState) (caller id value : Nat) :
    Except MarketError (MarketState × List (Nat × Nat)) :=
  match buyProduct s caller id value with
  | .error e => .error e
  | .ok steps =>
      if (transfersOf steps).all fun t => env t.1 t.2 then
        .ok (List.foldl applyStep s steps, transfersOf steps)
      else .error .transferFailed

/-- `getProduct(_id)` from `SimpleMarket.sol` (lines 257-284):
`require(_id > 0 && _id <= productCount)` else "Product does not exist", then
return the six fields of `products[_id]`. -/
def getProduct (s : MarketState) (id : Nat) :
    Except MarketError (Nat × String × String × Nat × Nat × Bool) :=
  if ¬ (id > 0 ∧ id ≤ s.productCount) then .error .notFound
  else
    let product := s.products id
    .ok (product.id, product.name, product.description, product.price,
         product.seller, product.sold)

/-- `isProductAvailable(_id)` from `SimpleMarket.sol` (lines 339-344):
`if (_id == 0 || _id > productCount) return false; return !products[_id].sold`. -/
def isProductAvailable (s : MarketState) (id : Nat) : Bool :=
  if id = 0 ∨ id > s.productCount then false
  else !(s.products id).sold

/-- One external call to a mutating operation of the contract, for reasoning
about arbitrary operation sequences. -/
inductive Op where
  | add (caller : Nat) (name description : String) (price : Nat)
  | buy (caller id value : Nat)

/-- Executing one operation as a transaction: a reverted call (any
`MarketError`, including a failed transfer) leaves the state unchanged. -/
def step (env : Nat → Nat → Bool) (s : MarketState) (o : Op) : MarketState :=
  match o with
  | .add caller name description price =>
      match addProduct s caller name description price with
      | .ok outcome => outcome.state
      | .error _ => s
  | .buy caller id value =>
      match runBuy env s caller id value with
      | .ok result => result.1
      | .error _ => s

/-- Executing a sequence of operations in order. -/
def execOps (env : Nat → Nat → Bool) (s : MarketState) (ops : List Op) :
    MarketState :=
  List.foldl (step env) s ops

/-- `t` is reachable from `s` without damaging any listing that exists in `s`:
the counter never decreases, every field of an existing listing except `sold`
is unchanged, and `sold` never reverts from `true` to `false`. -/
def FieldsPreserved (s t : MarketState) : Prop :=
  s.productCount ≤ t.productCount ∧
  ∀ id, id ≤ s.productCount →
    (t.products id).id = (s.products id).id ∧
    (t.products id).name = (s.products id).name ∧
    (t.products id).description = (s.products id).description ∧
    (t.products id).price = (s.products id).price ∧
    (t.products id).seller = (s.products id).seller ∧
    ((s.products id).sold = true → (t.products id).sold = true)

/-- Concrete state used by the witnesses: one unsold listing, id 1, priced at
100 wei, seller address 5. -/
def exState : MarketState :=
  { products := setProduct (fun _ => defaultProduct) 1
      { id := 1, name := "item", description := "desc", price := 100,
        seller := 5, sold := false },
    productCount := 1 }

/-- `exState` after its listing has been sold. -/
def exSoldState : MarketState :=
  { products := setProduct (fun _ => defaultProduct) 1
      { id := 1, name := "item", description := "desc", price := 100,
        seller := 5, sold := true },
    productCount := 1 }

/-- The step list produced by buying listing 1 of `exState` as address 9 with
150 wei attached (100 to the seller, 50 refunded). -/
def exSteps : List BuyStep :=
  [BuyStep.markSold 1, BuyStep.transferOut 5 100, BuyStep.transferOut 9 50,
   BuyStep.emitSold 1 "item" 100 5 9]

/-! ## Basic lemmas about the embedding -/

lemma setProduct_same (ps : Nat → Product) (k : Nat) (p : Product) :
    setProduct ps k p k = p := by
  simp [setProduct]

lemma setProduct_other (ps : Nat → Product) (k : Nat) (p : Product) (n : Nat)
    (h : n ≠ k) : setProduct ps k p n = ps n := by
  simp [setProduct, h]

/-- Exact shape of a successful `buyProduct` call. -/
lemma buyProduct_ok (s : MarketState) (caller id value : Nat)
    (h1 : id > 0) (h2 : id ≤ s.productCount)
    (h3 : (s.products id).price ≤ value)
    (h4 : (s.products id).sold = false)
    (h5 : (s.products id).seller ≠ caller) :
    buyProduct s caller id value =
      .ok ([BuyStep.markSold id,
            BuyStep.transferOut (s.products id).seller (s.products id).price]
        ++ (if value > (s.products id).price
            then [BuyStep.transferOut caller (value - (s.products id).price)]
            else [])
        ++ [BuyStep.emitSold id (s.products id).name (s.products id).price
              (s.products id).seller caller]) := by
  simp only [buyProduct]
  rw [if_neg (not_not_intro ⟨h1, h2⟩), if_neg (not_not_intro h3)]
  rw [if_neg (by simp [h4]), if_neg (not_not_intro h5)]

/-- A successful `buyProduct` call passed all four checks, and its step list
has the exact shape produced by the body. -/
lemma buyProduct_ok_inv (s : MarketState) (caller id value : Nat)
    (steps : List BuyStep)
    (h : buyProduct s caller id value = .ok steps) :
    id > 0 ∧ id ≤ s.productCount ∧ (s.products id).price ≤ value ∧
    (s.products id).sold = false ∧ (s.products id).seller ≠ caller ∧
    steps = [BuyStep.markSold id,
             BuyStep.transferOut (s.products id).seller (s.products id).price]
        ++ (if value > (s.products id).price
            then [BuyStep.transferOut caller (value - (s.products id).price)]
            else [])
        ++ [BuyStep.emitSold id (s.products id).name (s.products id).price
              (s.products id).seller caller] := by
  simp only [buyProduct] at h
  split_ifs at h with c1 c2 c3 c4 c5 <;>
    first
    | exact Except.noConfusion h
    | (injection h with h
       refine ⟨by tauto, by tauto, by tauto, by simpa using c3, by tauto, ?_⟩
       rw [← h]
       simp [c5])

/-- A sold listing can never be bought: `buyProduct` never succeeds on it. -/
lemma buyProduct_sold_not_ok (s : MarketState) (caller id value : Nat)
    (h : (s.products id).sold = true) :
    ∀ steps, buyProduct s caller id value ≠ .ok steps := by
  intro steps hok
  have := buyProduct_ok_inv s caller id value steps hok
  simp [h] at this

/-- Buying a sold listing that exists, with sufficient payment, fails at the
third check with `alreadySold`. -/
lemma buyProduct_sold_alreadySold (s : MarketState) (caller id value : Nat)
    (h1 : id > 0) (h2 : id ≤ s.productCount)
    (h3 : (s.products id).price ≤ value)
    (h4 : (s.products id).sold = true) :
    buyProduct s caller id value = .error .alreadySold := by
  simp only [buyProduct]
  rw [if_neg (not_not_intro ⟨h1, h2⟩), if_neg (not_not_intro h3), if_pos h4]

/-- Shape of a successful `addProduct` call. -/
lemma addProduct_ok_inv (s : MarketState) (caller : Nat)
    (name description : String) (price : Nat) (o : AddOutcome)
    (h : addProduct s caller name description price = .ok o) :
    name.length > 0 ∧ price > 0 ∧
    o.state.productCount = s.productCount + 1 ∧
    o.state.products = setProduct s.products (s.productCount + 1)
      { id := s.productCount + 1, name := name, description := description,
        price := price, seller := caller, sold := false } ∧
    o.event = { id := s.productCount + 1, name := name,
                description := description, price := price, seller := caller } ∧
    o.ret = [] := by
  simp only [addProduct] at h
  split_ifs at h with c1 c2
  injection h with h
  subst h
  exact ⟨by tauto, by tauto, rfl, rfl, rfl, rfl⟩

/-- Shape of a successful `runBuy` transaction. -/
lemma runBuy_ok_inv (env : Nat → Nat → Bool) (s : MarketState)
    (caller id value : Nat) (s2 : MarketState) (t : List (Nat × Nat))
    (h : runBuy env s caller id value = .ok (s2, t)) :
    ∃ steps, buyProduct s caller id value = .ok steps ∧
      ((transfersOf steps).all fun p => env p.1 p.2) = true ∧
      s2 = List.foldl applyStep s steps ∧ t = transfersOf steps := by
  unfold runBuy at h
  cases hb : buyProduct s caller id value with
  | error e => rw [hb] at h; exact Except.noConfusion h
  | ok steps =>
      rw [hb] at h
      dsimp only at h
      split_ifs at h with hall
      injection h with h
      injection h with h1 h2
      exact ⟨steps, rfl, hall, h1.symm, h2.symm⟩

/-! ## Preservation lemmas -/

lemma applyStep_productCount (s : MarketState) (a : BuyStep) :
    (applyStep s a).productCount = s.productCount := by
  cases a <;> rfl

lemma applyStep_fields (s : MarketState) (a : BuyStep) (id : Nat) :
    ((applyStep s a).products id).id = (s.products id).id ∧
    ((applyStep s a).products id).name = (s.products id).name ∧
    ((applyStep s a).products id).description = (s.products id).description ∧
    ((applyStep s a).products id).price = (s.products id).price ∧
    ((applyStep s a).products id).seller = (s.products id).seller ∧
    ((s.products id).sold = true → ((applyStep s a).products id).sold = true) := by
  cases a with
  | markSold j =>
      by_cases hj : id = j
      · subst hj
        simp [applyStep, setProduct]
      · simp [applyStep, setProduct_other _ _ _ _ hj]
  | transferOut r v => simp [applyStep]
  | emitSold a b c d e => simp [applyStep]

lemma foldl_applyStep_productCount (steps : List BuyStep) :
    ∀ s : MarketState,
      (List.foldl applyStep s steps).productCount = s.productCount := by
  induction steps with
  | nil => intro s; rfl
  | cons a rest ih =>
      intro s
      rw [List.foldl_cons, ih, applyStep_productCount]

lemma foldl_applyStep_fields (steps : List BuyStep) :
    ∀ (s : MarketState) (id : Nat),
      ((List.foldl applyStep s steps).products id).id = (s.products id).id ∧
      ((List.foldl applyStep s steps).products id).name = (s.products id).name ∧
      ((List.foldl applyStep s steps).products id).description
        = (s.products id).description ∧
      ((List.foldl applyStep s steps).products id).price = (s.products id).price ∧
      ((List.foldl applyStep s steps).products id).seller = (s.products id).seller ∧
      ((s.products id).sold = true →
        ((List.foldl applyStep s steps).products id).sold = true) := by
  induction steps with
  | nil => intro s id; simp
  | cons a rest ih =>
      intro s id
      rw [List.foldl_cons]
      obtain ⟨e1, e2, e3, e4, e5, e6⟩ := applyStep_fields s a id
      obtain ⟨f1, f2, f3, f4, f5, f6⟩ := ih (applyStep s a) id
      exact ⟨f1.trans e1, f2.trans e2, f3.trans e3, f4.trans e4, f5.trans e5,
             fun hs => f6 (e6 hs)⟩

/-- After `markSold id` has been applied, the product at `id` is `sold`,
whatever further steps run. -/
lemma foldl_applyStep_sold (steps : List BuyStep) (s : MarketState) (id : Nat)
    (h : (s.products id).sold = true) :
    ((List.foldl applyStep s steps).products id).sold = true :=
  (foldl_applyStep_fields steps s id).2.2.2.2.2 h

lemma markSold_sold (s : MarketState) (id : Nat) :
    ((applyStep s (BuyStep.markSold id)).products id).sold = true := by
  simp [applyStep, setProduct]

lemma FieldsPreserved.refl (s : MarketState) : FieldsPreserved s s :=
  ⟨le_rfl, fun _ _ => ⟨rfl, rfl, rfl, rfl, rfl, fun h => h⟩⟩

lemma FieldsPreserved.trans {s t u : MarketState}
    (h1 : FieldsPreserved s t) (h2 : FieldsPreserved t u) :
    FieldsPreserved s u := by
  refine ⟨h1.1.trans h2.1, fun id hid => ?_⟩
  obtain ⟨a1, a2, a3, a4, a5, a6⟩ := h1.2 id hid
  obtain ⟨b1, b2, b3, b4, b5, b6⟩ := h2.2 id (hid.trans h1.1)
  exact ⟨b1.trans a1, b2.trans a2, b3.trans a3, b4.trans a4, b5.trans a5,
         fun hs => b6 (a6 hs)⟩

/-- One transaction (committed or reverted) preserves every existing listing's
identity fields and never unsells a listing. -/
lemma step_preserves (env : Nat → Nat → Bool) (s : MarketState) (o : Op) :
    FieldsPreserved s (step env s o) := by
  cases o with
  | add caller name description price =>
      cases ha : addProduct s caller name description price with
      | error e => simp only [step, ha]; exact FieldsPreserved.refl s
      | ok outcome =>
          simp only [step, ha]
          obtain ⟨_, _, hc, hp, _, _⟩ :=
            addProduct_ok_inv s caller name description price outcome ha
          refine ⟨by omega, fun id hid => ?_⟩
          have hne : id ≠ s.productCount + 1 := by omega
          rw [hp, setProduct_other _ _ _ _ hne]
          exact ⟨rfl, rfl, rfl, rfl, rfl, fun h => h⟩
  | buy caller id value =>
      cases hr : runBuy env s caller id value with
      | error e => simp only [step, hr]; exact FieldsPreserved.refl s
      | ok result =>
          simp only [step, hr]
          obtain ⟨steps, hb, hall, hs2, ht⟩ :=
            runBuy_ok_inv env s caller id value result.1 result.2
              (by rw [hr])
          rw [hs2]
          refine ⟨by rw [foldl_applyStep_productCount], fun j hj => ?_⟩
          obtain ⟨e1, e2, e3, e4, e5, e6⟩ := foldl_applyStep_fields steps s j
          exact ⟨e1, e2, e3, e4, e5, e6⟩

/-- Any sequence of transactions preserves every existing listing's identity
fields and never unsells a listing. -/
lemma execOps_preserves (env : Nat → Nat → Bool) (ops : List Op) :
    ∀ s : MarketState, FieldsPreserved s (execOps env s ops) := by
  induction ops with
  | nil => intro s; exact FieldsPreserved.refl s
  | cons o rest ih =>
      intro s
      exact FieldsPreserved.trans (step_preserves env s o) (ih (step env s o))

/-! ## Claim theorems -/

/-- **C1**: every `buyProduct(caller, listingId, amountSent)` call applies the
four validation checks in source order — existence, payment, availability,
self-purchase — and the first failing one aborts the call with the named
error: out-of-range id fails with `notFound`; in-range id with
`amountSent < price` fails with `insufficientPayment`; in-range, paid-enough,
already-sold fails with `alreadySold`; in-range, paid-enough, unsold,
owner-called fails with `selfPurchase`. An aborted call returns only the
error (the `Except.error` branch carries no state or transfers): the revert
leaves the ledger unchanged and moves no funds. -/
theorem buyProduct_validation_order (s : MarketState) (caller id value : Nat) :
    (¬ (id > 0 ∧ id ≤ s.productCount) →
        buyProduct s caller id value = .error .notFound) ∧
    (id > 0 ∧ id ≤ s.productCount → value < (s.products id).price →
        buyProduct s caller id value = .error .insufficientPayment) ∧
    (id > 0 ∧ id ≤ s.productCount → (s.products id).price ≤ value →
        (s.products id).sold = true →
        buyProduct s caller id value = .error .alreadySold) ∧
    (id > 0 ∧ id ≤ s.productCount → (s.products id).price ≤ value →
        (s.products id).sold = false → (s.products id).seller = caller →
        buyProduct s caller id value = .error .selfPurchase) := by
  refine ⟨fun h1 => ?_, fun h1 h2 => ?_, fun h1 h2 h3 => ?_,
          fun h1 h2 h3 h4 => ?_⟩
  · simp only [buyProduct]
    rw [if_pos h1]
  · simp only [buyProduct]
    rw [if_neg (not_not_intro h1), if_pos (by omega :
      ¬ value ≥ (s.products id).price)]
  · exact buyProduct_sold_alreadySold s caller id value h1.1 h1.2 h2 h3
  · simp only [buyProduct]
    rw [if_neg (not_not_intro h1), if_neg (not_not_intro h2),
        if_neg (by simp [h3]), if_pos (not_not_intro h4)]

/-- Witness for C1: on a one-listing ledger (price 100, seller 5), id 2 is
`notFound`; 50 wei is `insufficientPayment`; a sold listing is `alreadySold`;
the seller buying their own listing is `selfPurchase`. -/
theorem buyProduct_validation_order_witness :
    buyProduct exState 9 2 100 = .error .notFound ∧
    buyProduct exState 9 1 50 = .error .insufficientPayment ∧
    buyProduct exSoldState 9 1 100 = .error .alreadySold ∧
    buyProduct exState 5 1 100 = .error .selfPurchase :=
  ⟨(buyProduct_validation_order exState 9 2 100).1 (by decide),
   (buyProduct_validation_order exState 9 1 50).2.1 (by decide) (by decide),
   (buyProduct_validation_order exSoldState 9 1 100).2.2.1 (by decide)
     (by decide) (by decide),
   (buyProduct_validation_order exState 5 1 100).2.2.2 (by decide) (by decide)
     (by decide) (by decide)⟩

/-- **C2**: across any sequence of operations, an existing listing's `id`,
`name` (title), `description` (details), `price` and `seller` (owner) never
change; only `sold` may change and only from `false` to `true`; and once a
purchase has succeeded (so `sold = true`), every later purchase attempt on
that listing fails — with `alreadySold` whenever the attached payment covers
the price — so at most one purchase ever succeeds per listing. -/
theorem listing_immutable_and_no_double_sale (env : Nat → Nat → Bool)
    (s : MarketState) (ops : List Op) (id : Nat)
    (h1 : 1 ≤ id) (h2 : id ≤ s.productCount) :
    ((execOps env s ops).products id).id = (s.products id).id ∧
    ((execOps env s ops).products id).name = (s.products id).name ∧
    ((execOps env s ops).products id).description
      = (s.products id).description ∧
    ((execOps env s ops).products id).price = (s.products id).price ∧
    ((execOps env s ops).products id).seller = (s.products id).seller ∧
    ((s.products id).sold = true →
      ((execOps env s ops).products id).sold = true) ∧
    ((s.products id).sold = true →
      (∀ c v, (s.products id).price ≤ v →
          buyProduct (execOps env s ops) c id v = .error .alreadySold) ∧
      (∀ c v steps, buyProduct (execOps env s ops) c id v ≠ .ok steps)) := by
  obtain ⟨hcount, hfields⟩ := execOps_preserves env ops s
  obtain ⟨e1, e2, e3, e4, e5, e6⟩ := hfields id h2
  refine ⟨e1, e2, e3, e4, e5, e6, fun hsold => ⟨?_, ?_⟩⟩
  · intro c v hv
    exact buyProduct_sold_alreadySold _ c id v h1 (h2.trans hcount)
      (by rw [e4]; exact hv) (e6 hsold)
  · intro c v steps
    exact buyProduct_sold_not_ok _ c id v (e6 hsold) steps

/-- Witness for C2: starting from a ledger whose listing 1 is sold, after a
further (valid) creation the purchase of listing 1 still fails with
`alreadySold`. -/
theorem listing_immutable_and_no_double_sale_witness :
    buyProduct (execOps (fun _ _ => true) exSoldState [Op.add 3 "x" "y" 7])
      9 1 100 = .error .alreadySold :=
  (((listing_immutable_and_no_double_sale (fun _ _ => true) exSoldState
      [Op.add 3 "x" "y" 7] 1 (by decide) (by decide)).2.2.2.2.2.2
    (by decide)).1) 9 100 (by decide)

lemma foldl_sold_of_head_markSold (s : MarketState) (id : Nat)
    (rest : List BuyStep) :
    ((List.foldl applyStep s (BuyStep.markSold id :: rest)).products id).sold
      = true := by
  rw [List.foldl_cons]
  exact foldl_applyStep_sold rest _ id (markSold_sold s id)

lemma transfersOf_with_refund (id sl pr c d b : Nat) (nm : String) :
    transfersOf ([BuyStep.markSold id, BuyStep.transferOut sl pr]
      ++ [BuyStep.transferOut c d] ++ [BuyStep.emitSold id nm pr sl b]) =
    [(sl, pr), (c, d)] := by
  simp [transfersOf]

lemma transfersOf_no_refund (id sl pr b : Nat) (nm : String) :
    transfersOf ([BuyStep.markSold id, BuyStep.transferOut sl pr]
      ++ [] ++ [BuyStep.emitSold id nm pr sl b]) = [(sl, pr)] := by
  simp [transfersOf]

/-- **C3**: when all four checks pass, `buyProduct` marks the listing sold,
sends exactly the listing price to the seller, refunds exactly
`amountSent - price` to the caller when `amountSent > price` (and nothing
otherwise), and conserves funds: `price + refund = amountSent`. -/
theorem purchase_success_effects (s : MarketState) (caller id value : Nat)
    (h1 : id > 0) (h2 : id ≤ s.productCount)
    (h3 : (s.products id).price ≤ value)
    (h4 : (s.products id).sold = false)
    (h5 : (s.products id).seller ≠ caller) :
    ∃ steps, buyProduct s caller id value = .ok steps ∧
      ((List.foldl applyStep s steps).products id).sold = true ∧
      sentTo (s.products id).seller (transfersOf steps)
        = (s.products id).price ∧
      sentTo caller (transfersOf steps)
        = (if value > (s.products id).price
           then value - (s.products id).price else 0) ∧
      (s.products id).price + sentTo caller (transfersOf steps) = value := by
  by_cases hgt : value > (s.products id).price
  · refine ⟨_, buyProduct_ok s caller id value h1 h2 h3 h4 h5, ?_, ?_, ?_, ?_⟩
    · rw [if_pos hgt]
      simp only [List.cons_append, List.nil_append]
      exact foldl_sold_of_head_markSold s id _
    · rw [if_pos hgt, transfersOf_with_refund]
      simp [sentTo, Ne.symm h5]
    · rw [if_pos hgt, if_pos hgt, transfersOf_with_refund]
      simp [sentTo, h5]
    · rw [if_pos hgt, transfersOf_with_refund]
      simp only [sentTo]
      simp [h5]
      omega
  · refine ⟨_, buyProduct_ok s caller id value h1 h2 h3 h4 h5, ?_, ?_, ?_, ?_⟩
    · rw [if_neg hgt]
      simp only [List.cons_append, List.nil_append]
      exact foldl_sold_of_head_markSold s id _
    · rw [if_neg hgt, transfersOf_no_refund]
      simp [sentTo]
    · rw [if_neg hgt, if_neg hgt, transfersOf_no_refund]
      simp [sentTo, h5]
    · rw [if_neg hgt, transfersOf_no_refund]
      simp [sentTo, h5]
      omega

/-- Witness for C3: buying the 100-wei listing of `exState` with 150 wei as
address 9 marks it sold, pays the seller (address 5) exactly 100 and refunds
exactly 50, with 100 + 50 = 150. -/
theorem purchase_success_effects_witness :
    ∃ steps, buyProduct exState 9 1 150 = .ok steps ∧
      ((List.foldl applyStep exState steps).products 1).sold = true ∧
      sentTo (exState.products 1).seller (transfersOf steps)
        = (exState.products 1).price ∧
      sentTo 9 (transfersOf steps)
        = (if 150 > (exState.products 1).price
           then 150 - (exState.products 1).price else 0) ∧
      (exState.products 1).price + sentTo 9 (transfersOf steps) = 150 :=
  purchase_success_effects exState 9 1 150 (by decide) (by decide) (by decide)
    (by decide) (by decide)

lemma reentrant_alreadySold (s : MarketState) (id : Nat) (h1 : id > 0)
    (h2 : id ≤ s.productCount) :
    ∀ c v,
      ((applyStep s (BuyStep.markSold id)).products id).price ≤ v →
      buyProduct (applyStep s (BuyStep.markSold id)) c id v
        = .error .alreadySold := by
  intro c v hv
  exact buyProduct_sold_alreadySold _ c id v h1
    (by rw [applyStep_productCount]; exact h2) hv (markSold_sold s id)

lemma reentrant_not_ok (s : MarketState) (id : Nat) :
    ∀ c v ts,
      buyProduct (applyStep s (BuyStep.markSold id)) c id v ≠ .ok ts := by
  intro c v ts
  exact buyProduct_sold_not_ok _ c id v (markSold_sold s id) ts

/-- **C4**: in every successful execution of `buyProduct`, the `sold` write is
the first effect, every outbound transfer occurs strictly after it
(position `k ≥ 1` while `sold` is written at position 0), and the
intermediate state visible at the moment any transfer is attempted (the fold
of the steps before it) already has `sold = true` — so a reentrant
`buyProduct` on the same listing launched from inside a transfer can never
succeed, and fails at the `alreadySold` check whenever its payment passes the
earlier checks. -/
theorem sold_set_before_any_transfer (s : MarketState) (caller id value : Nat)
    (steps : List BuyStep) (h : buyProduct s caller id value = .ok steps) :
    steps.head? = some (BuyStep.markSold id) ∧
    ∀ k r a, steps.get? k = some (BuyStep.transferOut r a) →
      1 ≤ k ∧
      ((List.foldl applyStep s (steps.take k)).products id).sold = true ∧
      (∀ c v,
        ((List.foldl applyStep s (steps.take k)).products id).price ≤ v →
        buyProduct (List.foldl applyStep s (steps.take k)) c id v
          = .error .alreadySold) ∧
      (∀ c v ts,
        buyProduct (List.foldl applyStep s (steps.take k)) c id v ≠ .ok ts) := by
  obtain ⟨c1, c2, c3, c4, c5, hsteps⟩ :=
    buyProduct_ok_inv s caller id value steps h
  subst hsteps
  by_cases hgt : value > (s.products id).price
  · rw [if_pos hgt]
    simp only [List.cons_append, List.nil_append]
    refine ⟨rfl, ?_⟩
    intro k r a hk
    match k with
    | 0 => simp [List.get?] at hk
    | 1 =>
        exact ⟨by omega, markSold_sold s id, reentrant_alreadySold s id c1 c2,
               reentrant_not_ok s id⟩
    | 2 =>
        exact ⟨by omega, markSold_sold s id, reentrant_alreadySold s id c1 c2,
               reentrant_not_ok s id⟩
    | 3 => simp [List.get?] at hk
    | (n + 4) => simp [List.get?] at hk
  · rw [if_neg hgt]
    simp only [List.cons_append, List.nil_append]
    refine ⟨rfl, ?_⟩
    intro k r a hk
    match k with
    | 0 => simp [List.get?] at hk
    | 1 =>
        exact ⟨by omega, markSold_sold s id, reentrant_alreadySold s id c1 c2,
               reentrant_not_ok s id⟩
    | 2 => simp [List.get?] at hk
    | (n + 3) => simp [List.get?] at hk

/-- Witness for C4: in the concrete purchase of `exState`'s listing by
address 9 with 150 wei, the first step is the `sold` write, the seller
payment sits at position 1, the state at that moment already shows
`sold = true`, and a reentrant purchase attempt by address 7 with 100 wei
fails with `alreadySold`. -/
theorem sold_set_before_any_transfer_witness :
    exSteps.head? = some (BuyStep.markSold 1) ∧
    1 ≤ 1 ∧
    ((List.foldl applyStep exState (exSteps.take 1)).products 1).sold = true ∧
    buyProduct (List.foldl applyStep exState (exSteps.take 1)) 7 1 100
      = .error .alreadySold := by
  have T := sold_set_before_any_transfer exState 9 1 150 exSteps (by rfl)
  have K := T.2 1 5 100 (by rfl)
  exact ⟨T.1, K.1, K.2.1, K.2.2.1 7 100 (by decide)⟩

/-- **C5**: a `buyProduct` transaction can only commit when every outbound
transfer is deliverable: whenever it commits, the listing is `sold` and the
seller payment of exactly `price` is among the delivered transfers (all of
them approved by the environment); and whenever the environment refuses any
transfer of a would-be-successful purchase, the whole transaction aborts with
`transferFailed`, committing no state (the `Except.error` result carries no
state: the caller keeps the pre-call ledger, so `sold = true` without
delivered payment is unreachable). -/
theorem transfer_failure_reverts (env : Nat → Nat → Bool) (s : MarketState)
    (caller id value : Nat) :
    (∀ s2 t, runBuy env s caller id value = .ok (s2, t) →
        (s2.products id).sold = true ∧
        ((s.products id).seller, (s.products id).price) ∈ t ∧
        (t.all fun p => env p.1 p.2) = true) ∧
    (∀ steps, buyProduct s caller id value = .ok steps →
        ((transfersOf steps).all fun p => env p.1 p.2) = false →
        runBuy env s caller id value = .error .transferFailed) := by
  constructor
  · intro s2 t hok
    obtain ⟨steps, hb, hall, hs2, ht⟩ :=
      runBuy_ok_inv env s caller id value s2 t hok
    obtain ⟨c1, c2, c3, c4, c5, hsteps⟩ :=
      buyProduct_ok_inv s caller id value steps hb
    subst hsteps
    subst hs2
    subst ht
    refine ⟨?_, ?_, hall⟩
    · simp only [List.cons_append, List.nil_append]
      exact foldl_sold_of_head_markSold s id _
    · by_cases hgt : value > (s.products id).price
      · rw [if_pos hgt, transfersOf_with_refund]
        exact List.mem_cons_self _ _
      · rw [if_neg hgt, transfersOf_no_refund]
        exact List.mem_cons_self _ _
  · intro steps hb hfail
    unfold runBuy
    rw [hb]
    dsimp only
    rw [if_neg (by simp [hfail])]

/-- Witness for C5: with an environment that can deliver, the committed
purchase of `exState`'s listing is sold-and-paid; with an environment that
refuses every delivery, the same purchase aborts with `transferFailed`. -/
theorem transfer_failure_reverts_witness :
    (((List.foldl applyStep exState exSteps).products 1).sold = true ∧
     ((exState.products 1).seller, (exState.products 1).price)
       ∈ transfersOf exSteps ∧
     ((transfersOf exSteps).all fun _ => true) = true) ∧
    runBuy (fun _ _ => false) exState 9 1 150 = .error .transferFailed := by
  constructor
  · exact (transfer_failure_reverts (fun _ _ => true) exState 9 1 150).1
      (List.foldl applyStep exState exSteps) (transfersOf exSteps) (by rfl)
  · exact (transfer_failure_reverts (fun _ _ => false) exState 9 1 150).2
      exSteps (by rfl) (by rfl)

/-- Counterexample for C6 as stated: on an empty ledger, a valid
`addProduct(caller = 7, "item", "desc", 5)` succeeds and assigns id 1
(= the new `productCount`), but the function's declared return-value list is
empty — the source declares `addProduct` without a `returns` clause, so the
new listing's id is NOT returned to the caller. -/
theorem addProduct_returns_no_id :
    ∃ o, addProduct initialState 7 "item" "desc" 5 = .ok o ∧
      o.state.productCount = 1 ∧ o.ret = [] ∧ o.ret ≠ [1] := by
  refine ⟨_, rfl, rfl, rfl, by simp⟩

/-- **C6 (amended)**: for every valid creation (non-empty title, positive
price), `addProduct` increases `productCount` by exactly 1, stores the new
listing under id equal to the new `productCount`, and emits the new id in the
`ProductAdded` notification; the function itself returns no value (the id
reaches the caller through the notification, not a return). -/
theorem addProduct_creates_and_emits_new_id (s : MarketState) (caller : Nat)
    (name description : String) (price : Nat)
    (h1 : name.length > 0) (h2 : price > 0) :
    ∃ o, addProduct s caller name description price = .ok o ∧
      o.state.productCount = s.productCount + 1 ∧
      o.state.products o.state.productCount =
        { id := s.productCount + 1, name := name, description := description,
          price := price, seller := caller, sold := false } ∧
      o.event.id = o.state.productCount ∧
      o.ret = [] := by
  simp only [addProduct]
  rw [if_neg (not_not_intro h1), if_neg (not_not_intro h2)]
  exact ⟨_, rfl, rfl, setProduct_same _ _ _, rfl, rfl⟩

/-- Witness for C6 (amended): concrete valid creation on the empty ledger. -/
theorem addProduct_creates_and_emits_new_id_witness :
    ∃ o, addProduct initialState 7 "item" "desc" 5 = .ok o ∧
      o.state.productCount = initialState.productCount + 1 ∧
      o.state.products o.state.productCount =
        { id := initialState.productCount + 1, name := "item",
          description := "desc", price := 5, seller := 7, sold := false } ∧
      o.event.id = o.state.productCount ∧
      o.ret = [] :=
  addProduct_creates_and_emits_new_id initialState 7 "item" "desc" 5
    (by decide) (by decide)

/-- **C7**: `addProduct` fails with `invalidInput` exactly when the title is
empty or the price is zero (the only non-positive `uint256` value); every
failure of `addProduct` is an `invalidInput`; and a failing call returns only
the error (the `Except.error` branch carries no outcome): no listing is
stored, the counter is unchanged and no notification is emitted. -/
theorem addProduct_invalidInput_iff (s : MarketState) (caller : Nat)
    (name description : String) (price : Nat) :
    (addProduct s caller name description price = .error .invalidInput ↔
      name.length = 0 ∨ price = 0) ∧
    (∀ e, addProduct s caller name description price = .error e →
      e = .invalidInput) := by
  constructor
  · constructor
    · intro h
      simp only [addProduct] at h
      split_ifs at h with hn hp
      · right; omega
      · left; omega
    · intro h
      simp only [addProduct]
      by_cases hn : name.length > 0
      · have hp : price = 0 := by
          rcases h with h | h
          · omega
          · exact h
        rw [if_neg (not_not_intro hn), if_pos (by omega)]
      · rw [if_pos hn]
  · intro e h
    simp only [addProduct] at h
    split_ifs at h with hn hp <;> · injection h with h; exact h.symm

/-- Witness for C7: the spec's two concrete rejection scenarios, plus a proof
that a concrete valid call does not fail. -/
theorem addProduct_invalidInput_iff_witness :
    addProduct initialState 7 "" "desc" 10 = .error .invalidInput ∧
    addProduct initialState 7 "name" "desc" 0 = .error .invalidInput ∧
    MarketError.invalidInput = MarketError.invalidInput := by
  refine ⟨?_, ?_, ?_⟩
  · exact (addProduct_invalidInput_iff initialState 7 "" "desc" 10).1.mpr
      (by decide)
  · exact (addProduct_invalidInput_iff initialState 7 "name" "desc" 0).1.mpr
      (by decide)
  · exact (addProduct_invalidInput_iff initialState 7 "" "desc" 10).2
      .invalidInput (by rfl)

/-- **C8** (round-trip): after any valid `addProduct(title, details, price)`
call by `caller`, `getProduct` on the newly assigned id (the new
`productCount`) succeeds and returns exactly that id, title, details and
price, with `seller = caller` and `sold = false`. -/
theorem create_then_get_roundtrip (s : MarketState) (caller : Nat)
    (name description : String) (price : Nat)
    (h1 : name.length > 0) (h2 : price > 0) :
    ∃ o, addProduct s caller name description price = .ok o ∧
      getProduct o.state o.state.productCount =
        .ok (o.state.productCount, name, description, price, caller, false) := by
  obtain ⟨o, ho⟩ :
      ∃ o, addProduct s caller name description price = .ok o := by
    simp only [addProduct]
    rw [if_neg (not_not_intro h1), if_neg (not_not_intro h2)]
    exact ⟨_, rfl⟩
  obtain ⟨_, _, hc, hprod, _, _⟩ :=
    addProduct_ok_inv s caller name description price o ho
  refine ⟨o, ho, ?_⟩
  simp only [getProduct]
  rw [if_neg (not_not_intro ⟨by omega, le_rfl⟩)]
  rw [hc, hprod, setProduct_same]

/-- Witness for C8: concrete round-trip on the empty ledger. -/
theorem create_then_get_roundtrip_witness :
    ∃ o, addProduct initialState 7 "item" "desc" 5 = .ok o ∧
      getProduct o.state o.state.productCount =
        .ok (o.state.productCount, "item", "desc", 5, 7, false) :=
  create_then_get_roundtrip initialState 7 "item" "desc" 5 (by decide)
    (by decide)

/-- **C9**: `isProductAvailable` returns `false` for `id = 0` or
`id > productCount` — merging the existence check into the boolean with no
error, whereas `getProduct` on the same out-of-range id fails with
`notFound` — and on an existing id returns the negation of its `sold` flag
(`isProductAvailable` is a total `Bool`-valued function: it can raise no
error by type). -/
theorem isProductAvailable_merges_checks (s : MarketState) (id : Nat) :
    (id = 0 ∨ id > s.productCount →
        isProductAvailable s id = false ∧
        getProduct s id = .error .notFound) ∧
    (id ≠ 0 → id ≤ s.productCount →
        isProductAvailable s id = !(s.products id).sold) := by
  constructor
  · intro h
    constructor
    · simp only [isProductAvailable]
      rw [if_pos h]
    · simp only [getProduct]
      rw [if_pos (by omega)]
  · intro h1 h2
    simp only [isProductAvailable]
    rw [if_neg (by omega)]

/-- Witness for C9: on the empty ledger, id 999 is merely unavailable while
`getProduct` rejects it with `notFound`; on `exState`, the unsold listing 1
is available. -/
theorem isProductAvailable_merges_checks_witness :
    (isProductAvailable initialState 999 = false ∧
     getProduct initialState 999 = .error .notFound) ∧
    isProductAvailable exState 1 = !(exState.products 1).sold := by
  constructor
  · exact (isProductAvailable_merges_checks initialState 999).1
      (by decide)
  · exact (isProductAvailable_merges_checks exState 1).2 (by decide)
      (by decide)

/-- **C10**: when a purchase succeeds with `amountSent` exactly equal to the
listing price, the only outbound transfer is the seller payment — the refund
branch is skipped entirely, so the buyer is sent nothing back (no zero-amount
transfer either), while the seller still receives exactly the price. -/
theorem exact_payment_no_refund (s : MarketState) (caller id value : Nat)
    (h1 : id > 0) (h2 : id ≤ s.productCount)
    (h3 : value = (s.products id).price)
    (h4 : (s.products id).sold = false)
    (h5 : (s.products id).seller ≠ caller) :
    ∃ steps, buyProduct s caller id value = .ok steps ∧
      transfersOf steps = [((s.products id).seller, (s.products id).price)] ∧
      sentTo caller (transfersOf steps) = 0 := by
  refine ⟨_, buyProduct_ok s caller id value h1 h2 (le_of_eq h3.symm) h4 h5,
          ?_, ?_⟩
  · rw [if_neg (by omega), transfersOf_no_refund]
  · rw [if_neg (by omega), transfersOf_no_refund]
    simp [sentTo, h5]

/-- Witness for C10: buying `exState`'s 100-wei listing with exactly 100 wei
produces the single transfer `(5, 100)` and no refund. -/
theorem exact_payment_no_refund_witness :
    ∃ steps, buyProduct exState 9 1 100 = .ok steps ∧
      transfersOf steps = [((exState.products 1).seller,
                           (exState.products 1).price)] ∧
      sentTo 9 (transfersOf steps) = 0 :=
  exact_payment_no_refund exState 9 1 100 (by decide) (by decide) (by decide)
    (by decide) (by decide)
